import Mathlib

/-
Verification of the Gemini-Agent repository: a shallow embedding of the
tool-calling orchestration loop (src/agent/gemini_agent.py), the memory
manager (src/tools/memory_manager.py), the trash-bin file tools
(src/tools/file_system.py) and the subprocess-invoking system tools
(src/tools/system.py), together with theorems settling the frozen claims.

Python dictionaries are rendered as association lists of (key, value)
pairs in insertion order; raised exceptions are modelled explicitly
(PyResult); external libraries (sentence-transformers, chromadb,
subprocess, requests) are modelled as oracle environments.
-/

set_option linter.unusedVariables false
set_option linter.unnecessarySeqFocus false

/-- JSON-like values: the payloads of tool-result dictionaries. -/
inductive JVal where
  | s (v : String)
  | n (v : Int)
  | q (v : Rat)
  | b (v : Bool)
  | null
  | arr (vs : List JVal)
  | obj (kvs : List (String × JVal))

/-- A Python dict in insertion order (tool results, argument mappings). -/
def Res : Type := List (String × JVal)

instance : Append Res := ⟨fun a b => List.append a b⟩

/-- Lookup of a top-level key in a result dictionary. -/
def resGet (r : Res) (key : String) : Option JVal :=
  match r with
  | [] => none
  | (k, v) :: rest => if k = key then some v else resGet rest key

/-- How many times a top-level "error" key occurs in a result. -/
def errCount (r : Res) : Nat :=
  (r.filter (fun kv => kv.fst = "error")).length

/-- A result is well shaped when it either has no "error" key at all
(success shape) or is exactly the one-key error dictionary. -/
def wellShaped (r : Res) : Prop :=
  errCount r = 0 ∨ ∃ m, r = [("error", JVal.s m)]

/-- Outcome of running a Python callable: normal return or a raised
exception carrying its message. -/
inductive PyResult (α : Type) where
  | ok (v : α)
  | exc (msg : String)

/-- The argument mapping the model supplies for a tool call. -/
def Args : Type := List (String × JVal)

/-- A registered tool handler: from arguments to a result or a raised
exception (GeminiAgent._setup_function_map values). -/
def Handler : Type := Args → PyResult Res

/-- GeminiAgent.execute_function_call: look the name up in the function
map; unknown names give the "Unknown function" error dict, a raising
handler is caught at this boundary and converted to the
"Function execution error" dict, and a normal return is passed through.
Total by construction: it never propagates an exception. -/
def execute_function_call (fmap : String → Option Handler)
    (name : String) (args : Args) : Res :=
  match fmap name with
  | some h =>
    match h args with
    | PyResult.ok r => r
    | PyResult.exc e => [("error", JVal.s ("Function execution error: " ++ e))]
  | none => [("error", JVal.s ("Unknown function: " ++ name))]

/-- A three-entry function map used to instantiate the executor theorems
on concrete inputs. -/
def fmapDemo : String → Option Handler := fun n =>
  if n = "boom" then some (fun _ => PyResult.exc "kaput")
  else if n = "good" then some (fun _ => PyResult.ok [("ok", JVal.b true)])
  else none

/-! ## The orchestration loop (GeminiAgent.run) -/

/-- Role of a turn in the conversation history. -/
inductive Role where
  | user
  | model
  | function
deriving Repr, DecidableEq

/-- Content of one history entry: plain text, a model turn holding a
function_call part, or a function-role turn holding the FunctionResponse
(whose payload the code wraps as response={"result": result}). -/
inductive TContent where
  | text (s : String)
  | call (name : String) (args : Args)
  | fnResp (name : String) (result : Res)

/-- One entry of GeminiAgent.history. -/
structure Turn where
  role : Role
  content : TContent

/-- One part of a model response: a function_call part or a text part
(the code treats a part with empty text as neither). -/
inductive RPart where
  | functionCall (name : String) (args : Args)
  | text (s : String)

/-- The inner for-loop over response.candidates[0].content.parts:
threads the history, the count of executor invocations, and the
has_function_calls flag, appending for a function_call part the model
turn followed immediately by the function-response turn, and for a
nonempty text part a model text turn. -/
def processParts (fmap : String → Option Handler) :
    List RPart → List Turn → Nat → Bool → List Turn × Nat × Bool
  | [], hist, ex, fc => (hist, ex, fc)
  | RPart.functionCall n a :: rest, hist, ex, fc =>
      let r := execute_function_call fmap n a
      processParts fmap rest
        (hist ++ [⟨Role.model, TContent.call n a⟩,
                  ⟨Role.function, TContent.fnResp n r⟩]) (ex + 1) true
  | RPart.text s :: rest, hist, ex, fc =>
      if s = "" then processParts fmap rest hist ex fc
      else processParts fmap rest (hist ++ [⟨Role.model, TContent.text s⟩]) ex fc

/-- The turns appended by processParts, in isolation. -/
def partsDelta (fmap : String → Option Handler) : List RPart → List Turn
  | [] => []
  | RPart.functionCall n a :: rest =>
      ⟨Role.model, TContent.call n a⟩ ::
      ⟨Role.function, TContent.fnResp n (execute_function_call fmap n a)⟩ ::
      partsDelta fmap rest
  | RPart.text s :: rest =>
      (if s = "" then [] else [⟨Role.model, TContent.text s⟩]) ++ partsDelta fmap rest

/-- Number of function_call parts in a response. -/
def countCalls : List RPart → Nat
  | [] => 0
  | RPart.functionCall _ _ :: rest => countCalls rest + 1
  | RPart.text _ :: rest => countCalls rest

/-- Whether a response contains at least one function_call part. -/
def anyCall (parts : List RPart) : Bool :=
  parts.any fun p => match p with
    | RPart.functionCall _ _ => true
    | RPart.text _ => false

/-- A model oracle: given the number of model calls made so far in this
Processing cycle and the current history, the parts of the next response. -/
def ModelFun : Type := Nat → List Turn → List RPart

/-- The while-loop of GeminiAgent.run with fuel = MAX_ITERATIONS minus the
current value of iteration: each round increments iteration, makes one
model call, processes the parts, and exits when no function call was seen
or the iteration ceiling is reached. Returns (iteration, tool-execution
count, history). -/
def loopFrom (fmap : String → Option Handler) (model : ModelFun) :
    Nat → Nat → Nat → List Turn → Nat × Nat × List Turn
  | 0, it, ex, hist => (it, ex, hist)
  | fuel + 1, it, ex, hist =>
      let parts := model it hist
      let r := processParts fmap parts hist ex false
      if r.2.2 then loopFrom fmap model fuel (it + 1) r.2.1 r.1
      else (it + 1, r.2.1, r.1)

/-- What one Processing cycle of the loop produces: the number of model
calls made, the number of tool executions, the final history, and whether
the post-loop limit-reached notice (iteration >= MAX_ITERATIONS) fires. -/
structure CycleResult where
  modelCalls : Nat
  toolExecs : Nat
  hist : List Turn
  limitNotice : Bool

/-- One Processing cycle: the while-loop run with fuel MAX_ITERATIONS from
iteration 0, followed by the limit-notice check of GeminiAgent.run. -/
def processingCycle (fmap : String → Option Handler) (model : ModelFun)
    (maxIter : Nat) (hist0 : List Turn) : CycleResult :=
  let r := loopFrom fmap model maxIter 0 0 hist0
  ⟨r.1, r.2.1, r.2.2, decide (maxIter ≤ r.1)⟩

/-- Check of one adjacent pair of turns: a function-role turn carrying a
FunctionResponse must immediately follow a model-role turn whose
function_call part names the same tool; any other function-role turn is
rejected; non-function turns are unconstrained. -/
def pairOK (prev t : Turn) : Bool :=
  match t with
  | ⟨Role.function, TContent.fnResp n _⟩ =>
      match prev with
      | ⟨Role.model, TContent.call n2 _⟩ => n2 == n
      | _ => false
  | ⟨Role.function, _⟩ => false
  | _ => true

/-- pairOK holds along the list, threading the previous turn. -/
def adjOK : Turn → List Turn → Bool
  | _, [] => true
  | prev, t :: rest => pairOK prev t && adjOK t rest

/-- Adjacency invariant on the history: scanning left to right, every
function-role (tool-result) turn is the immediate successor of a
model-role turn whose tool-call request carries the same tool name, and
the history never begins with a function-role turn. -/
def blocksWF : List Turn → Bool
  | [] => true
  | t :: rest => (!(t.role == Role.function)) && adjOK t rest

/-- Whether some turn in the list is a model turn requesting tool n. -/
def hasEarlierCall (pre : List Turn) (n : String) : Bool :=
  pre.any fun t => match t with
    | ⟨Role.model, TContent.call n2 _⟩ => n2 == n
    | _ => false

/-- Scan that checks each function-role turn against the turns strictly
before it: there must be an earlier model turn calling the same tool. -/
def noOrphanAux (pre : List Turn) : List Turn → Bool
  | [] => true
  | t :: rest =>
      (match t with
       | ⟨Role.function, TContent.fnResp n _⟩ => hasEarlierCall pre n
       | _ => true) && noOrphanAux (pre ++ [t]) rest

/-- Every tool-result turn has an earlier model tool-call turn for the
same name. -/
def noOrphan (hist : List Turn) : Bool := noOrphanAux [] hist

/-- Whether a list of turns does not start with a function-role turn. -/
def notFnHead : List Turn → Bool
  | [] => true
  | t :: _ => !(t.role == Role.function)

/-- The two fixed greeting turns GeminiAgent.run seeds the history with. -/
def initialHistory : List Turn :=
  [⟨Role.user, TContent.text "You are an AI assistant with memory capabilities."⟩,
   ⟨Role.model, TContent.text "I am AICOOK, your personal AI assistant. I can learn from our interactions. How can I help you today?"⟩]

/-- One outer-loop round of GeminiAgent.run: the recalled-memories context
turn (only when recall returned facts), the literal user turn, then one
Processing cycle. -/
structure SessionStep where
  input : String
  recalled : List String
  model : ModelFun

/-- The memory-context turn prepended before the literal user input. -/
def recallTurns (recalled : List String) : List Turn :=
  if recalled = [] then []
  else [⟨Role.user, TContent.text ("Relevant memories:\n" ++ String.intercalate "\n" recalled)⟩]

/-- Apply one outer-loop round to the history. -/
def sessionStep (fmap : String → Option Handler) (maxIter : Nat)
    (hist : List Turn) (st : SessionStep) : List Turn :=
  (processingCycle fmap st.model maxIter
    (hist ++ recallTurns st.recalled ++ [⟨Role.user, TContent.text st.input⟩])).hist

/-- The conversation history after any sequence of outer-loop rounds. -/
def sessionHistory (fmap : String → Option Handler) (maxIter : Nat)
    (steps : List SessionStep) : List Turn :=
  steps.foldl (sessionStep fmap maxIter) initialHistory

/-! ## The memory manager (src/tools/memory_manager.py) -/

/-- One stored memory: its chromadb id (SHA256 of the fact) and the fact
text itself. -/
structure MemEntry where
  id : String
  doc : String
deriving Repr, DecidableEq

/-- The persistent chromadb collection, as the list of stored entries in
insertion order. -/
structure MemStore where
  entries : List MemEntry
deriving Repr, DecidableEq

/-- Oracle for sentence-transformers and chromadb: sim q d is the cosine
similarity cos_sim(encode q, encode d) of two texts, encodeFails marks
texts whose encoding raises, and failMsg is the raised message. -/
structure MemEnv where
  sim : String → String → Rat
  encodeFails : String → Bool
  failMsg : String

/-- chromadb collection.query with n_results = topN: the stored entries
nearest to the query, most similar first. -/
def nearestEntries (env : MemEnv) (query : String) (topN : Nat)
    (entries : List MemEntry) : List MemEntry :=
  (entries.insertionSort
    (fun a b => env.sim query b.doc ≤ env.sim query a.doc)).take topN

/-- MemoryManager.recall: an empty store yields []; a failure of the
embedding or similarity computation is caught and yields []; otherwise the
documents of the top_n most similar entries, most similar first. -/
def recallM (env : MemEnv) (store : MemStore) (query : String)
    (topN : Nat) : List String :=
  if store.entries.isEmpty then []
  else if env.encodeFails query then []
  else (nearestEntries env query topN store.entries).map (·.doc)

/-- Result statuses of MemoryManager.forget: the dicts
status=empty/not_found/success/match_found/error with their payloads. -/
inductive ForgetOutcome where
  | empty
  | notFound
  | success (deletedFacts : List String)
  | matchFound (found : List (String × Rat × String))
  | errorOut (msg : String)
deriving Repr, DecidableEq

/-- Python round(x, 3) on a similarity (exact .0005 ties are rounded up
here rather than to even; no claim depends on the tie direction). -/
def round3 (x : Rat) : Rat := ((round (x * 1000) : Int) : Rat) / 1000

/-- chromadb collection.delete(ids=[i]). -/
def deleteId (store : MemStore) (i : String) : MemStore :=
  ⟨store.entries.filter (fun e => !(e.id == i))⟩

/-- Result of the candidate loop inside MemoryManager.forget: normal
completion, or an exception raised mid-loop with the store as already
mutated by the deletions made before the failure. -/
inductive LoopStep where
  | done (st : MemStore) (deleted : List String)
      (matched : List (String × Rat × String))
  | raised (st : MemStore) (msg : String)

/-- The for-loop of MemoryManager.forget over the queried candidates:
re-encode each candidate, compare cosine similarity against the
threshold, record a match, and when confirm also delete it and record
the deletion. -/
def forgetLoop (env : MemEnv) (fact : String) (confirm : Bool)
    (threshold : Rat) :
    List MemEntry → MemStore → List String →
    List (String × Rat × String) → LoopStep
  | [], st, deleted, matched => LoopStep.done st deleted matched
  | e :: rest, st, deleted, matched =>
      if env.encodeFails e.doc then LoopStep.raised st env.failMsg
      else
        let similarity := env.sim fact e.doc
        if threshold ≤ similarity then
          let matched2 := matched ++ [(e.doc, round3 similarity, e.id)]
          if confirm then
            forgetLoop env fact confirm threshold rest (deleteId st e.id)
              (deleted ++ [e.doc]) matched2
          else forgetLoop env fact confirm threshold rest st deleted matched2
        else forgetLoop env fact confirm threshold rest st deleted matched

/-- MemoryManager.forget: empty store reports status empty; otherwise the
top_n nearest candidates are scanned as in the source loop; any raised
failure is caught into the error status; no match at or above the
threshold reports not_found; with confirm the matched entries have been
deleted and are reported, without confirm the matches are only listed.
Returns the result status together with the store after any deletions. -/
def forget (env : MemEnv) (store : MemStore) (fact : String)
    (confirm : Bool) (threshold : Rat) (topN : Nat) :
    ForgetOutcome × MemStore :=
  if store.entries.isEmpty then (ForgetOutcome.empty, store)
  else if env.encodeFails fact then
    (ForgetOutcome.errorOut ("Failed during semantic forget: " ++ env.failMsg), store)
  else
    match forgetLoop env fact confirm threshold
        (nearestEntries env fact topN store.entries) store [] [] with
    | LoopStep.raised st m =>
        (ForgetOutcome.errorOut ("Failed during semantic forget: " ++ m), st)
    | LoopStep.done st deleted matched =>
        if matched.isEmpty then (ForgetOutcome.notFound, st)
        else if confirm then (ForgetOutcome.success deleted, st)
        else (ForgetOutcome.matchFound matched, st)

/-- The candidates among the top_n nearest whose similarity is at or
above the threshold. -/
def thresholdHits (env : MemEnv) (fact : String) (threshold : Rat)
    (topN : Nat) (entries : List MemEntry) : List MemEntry :=
  (nearestEntries env fact topN entries).filter
    (fun e => decide (threshold ≤ env.sim fact e.doc))

/-- The store component a loop step left behind. -/
def LoopStep.store : LoopStep → MemStore
  | LoopStep.done st _ _ => st
  | LoopStep.raised st _ => st

/-- Concrete memory environment for instantiating the recall theorem. -/
def envRecallDemo : MemEnv :=
  ⟨fun _ d => if d = "x" then 2 else 1, fun _ => false, "embed failure"⟩

/-- Concrete two-entry store for instantiating the recall theorem. -/
def storeRecallDemo : MemStore := ⟨[⟨"1", "y"⟩, ⟨"2", "x"⟩]⟩

/-- Concrete memory environment for instantiating the forget theorem. -/
def envForgetDemo : MemEnv :=
  ⟨fun _ d => if d = "x" then 1 else 0, fun _ => false, "embed failure"⟩

/-- Concrete two-entry store for instantiating the forget theorem. -/
def storeForgetDemo : MemStore := ⟨[⟨"1", "x"⟩, ⟨"2", "y"⟩]⟩

/-- Scripted model that requests a tool call in every response. -/
def modelAlwaysCall : ModelFun := fun _ _ => [RPart.functionCall "t" []]

/-- Scripted model that returns N responses with exactly one tool-call
part each, followed by text-only responses. -/
def modelNThenText (N : Nat) : ModelFun := fun k _ =>
  if k < N then [RPart.functionCall "t" []] else [RPart.text "done"]

/-! ## The trash-bin file tools (src/tools/file_system.py) -/

/-- Operating-system dispatch of the file and system tools. -/
inductive OS where
  | macos
  | windows
  | linux
  | other (name : String)
deriving Repr, DecidableEq

/-- The platform.system() display name. -/
def osName : OS → String
  | OS.macos => "Darwin"
  | OS.windows => "Windows"
  | OS.linux => "Linux"
  | OS.other n => n

/-- The platform-specific trash path string. -/
def trashPathOf : OS → String
  | OS.macos => "~/.Trash"
  | OS.windows => "C:\\$Recycle.Bin"
  | OS.linux => "~/.local/share/Trash/files"
  | OS.other _ => ""

/-- One item of the trash directory listing (trash_path.iterdir()): name,
full path, stat size and modification time (times are modelled in whole
days), directory flag, whether stat succeeds (OSError/PermissionError on
stat silently skips the item), whether deletion succeeds
(OSError/PermissionError on unlink/rmtree is recorded as a failed
deletion) and the message str(e) of such a failure. -/
structure TrashItem where
  name : String
  path : String
  size : Nat
  mtime : Int
  isDir : Bool
  statOK : Bool
  deleteOK : Bool
  deleteErr : String
deriving Repr, DecidableEq

/-- The file-system state the two trash tools read and mutate: whether
the trash directory exists (for Windows, whether one of the Recycle Bin
locations was found), its items in iteration order, and the current time
in days (datetime.now()). -/
structure FSState where
  trashExists : Bool
  winRecycleFound : Bool
  items : List TrashItem
  now : Int
deriving Repr, DecidableEq

/-- The items whose stat succeeds (total_files/total_size range over
these). -/
def visibleItems (st : FSState) : List TrashItem :=
  st.items.filter (fun i => i.statOK)

/-- The qualifying old files: stat succeeds and the modification time is
strictly before the cutoff now - days_threshold. -/
def oldFiles (st : FSState) (days : Int) : List TrashItem :=
  st.items.filter (fun i => i.statOK && decide (i.mtime < st.now - days))

/-- The dict rendered for one old file (timestamps are rendered as their
integer day values rather than ISO strings). -/
def oldFileJson (st : FSState) (i : TrashItem) : JVal :=
  JVal.obj [("name", JVal.s i.name), ("path", JVal.s i.path),
    ("size", JVal.n (i.size : Int)), ("modified", JVal.n i.mtime),
    ("days_old", JVal.n (st.now - i.mtime))]

/-- The scan result of check_trash_bin: totals over stat-visible items,
old_files truncated to its first 20 entries for display, while
size_to_free sums over ALL qualifying files. -/
def checkScan (os : OS) (st : FSState) (days : Int) : Res :=
  [("trash_path", JVal.s (trashPathOf os)),
   ("platform", JVal.s (osName os)),
   ("total_files", JVal.n ((visibleItems st).length : Int)),
   ("total_size", JVal.n ((visibleItems st).map (fun i => (i.size : Int))).sum),
   ("old_files_count", JVal.n ((oldFiles st days).length : Int)),
   ("old_files", JVal.arr (((oldFiles st days).take 20).map (oldFileJson st))),
   ("size_to_free", JVal.n (((oldFiles st days).map (fun i => (i.size : Int))).sum)),
   ("days_threshold", JVal.n days),
   ("scan_timestamp", JVal.n st.now)]

/-- file_system.check_trash_bin: platform dispatch, Recycle Bin search on
Windows, trash-directory existence check, then the scan. The stat
failures that the source catches per item are modelled by statOK; nothing
else in the body can raise, so the outer catch-all branch is silent. -/
def check_trash_bin (os : OS) (st : FSState) (days : Int) : Res :=
  match os with
  | OS.macos =>
      if st.trashExists then checkScan OS.macos st days
      else [("error", JVal.s ("Trash directory not found: " ++ trashPathOf OS.macos))]
  | OS.windows =>
      if st.winRecycleFound then
        (if st.trashExists then checkScan OS.windows st days
         else [("error", JVal.s ("Trash directory not found: " ++ trashPathOf OS.windows))])
      else [("error", JVal.s "Recycle Bin not found")]
  | OS.linux =>
      if st.trashExists then checkScan OS.linux st days
      else [("error", JVal.s ("Trash directory not found: " ++ trashPathOf OS.linux))]
  | OS.other n => [("error", JVal.s ("Unsupported operating system: " ++ n))]

/-- Path.exists(): some item at this path is still present. -/
def pathExists (items : List TrashItem) (p : String) : Bool :=
  items.any (fun i => i.path == p)

/-- unlink / shutil.rmtree: remove the item at this path. -/
def removePath (items : List TrashItem) (p : String) : List TrashItem :=
  items.filter (fun i => !(i.path == p))

/-- The deletion loop of clean_old_trash_files over the (already
truncated) old_files listing: skip entries whose path no longer exists,
record a failed deletion when removal raises, otherwise delete and add
the listed size to the freed total. Returns (deleted names, failed
(name, error) pairs, freed bytes, remaining items). -/
def cleanLoop : List TrashItem → List TrashItem →
    List String × List (String × String) × Int × List TrashItem
  | [], items => ([], [], 0, items)
  | f :: rest, items =>
      if pathExists items f.path then
        (if f.deleteOK then
          let r := cleanLoop rest (removePath items f.path)
          (f.name :: r.1, r.2.1, (f.size : Int) + r.2.2.1, r.2.2.2)
        else
          let r := cleanLoop rest items
          (r.1, (f.name, f.deleteErr) :: r.2.1, r.2.2.1, r.2.2.2))
      else cleanLoop rest items

/-- Python round(x, 2) for the space_freed_mb display value. -/
def round2 (x : Rat) : Rat := ((round (x * 100) : Int) : Rat) / 100

/-- file_system.clean_old_trash_files: re-runs check_trash_bin, passes an
error result through unchanged, reports when no old files were listed,
and otherwise deletes exactly the files of the truncated old_files
listing. The confirm parameter is accepted (schema default true) but
never read by the body. Returns the result dict and the state after the
deletions. -/
def clean_old_trash_files (os : OS) (st : FSState) (days : Int)
    (confirm : Bool) : Res × FSState :=
  let trash_check := check_trash_bin os st days
  if (resGet trash_check "error").isSome then (trash_check, st)
  else
    let old := (oldFiles st days).take 20
    if old.isEmpty then
      ([("message", JVal.s "No old files found to delete"),
        ("deleted_count", JVal.n 0)], st)
    else
      let r := cleanLoop old st.items
      ([("deleted_count", JVal.n (r.1.length : Int)),
        ("failed_count", JVal.n (r.2.1.length : Int)),
        ("deleted_files", JVal.arr (r.1.map JVal.s)),
        ("failed_deletions", JVal.arr (r.2.1.map (fun fd =>
          JVal.obj [("file", JVal.s fd.1), ("error", JVal.s fd.2)]))),
        ("space_freed_bytes", JVal.n r.2.2.1),
        ("space_freed_mb", JVal.q (round2 ((r.2.2.1 : Rat) / (1024 * 1024)))),
        ("timestamp", JVal.n st.now)],
       { st with items := r.2.2.2 })

/-- One qualifying one-byte trash file. -/
def trashDemoItem (k : Nat) : TrashItem :=
  ⟨"f" ++ toString k, "/trash/f" ++ toString k, 1, 0, false, true, true, ""⟩

/-- A trash state with 21 qualifying one-byte files. -/
def stTrashDemo : FSState :=
  ⟨true, true, (List.range 21).map trashDemoItem, 100⟩

/-! ## The subprocess-invoking system tools (src/tools/system.py) and
the web fetcher (src/tools/web_fetcher.py) -/

/-- Outcome of a call that may never return: a value, or an unbounded
hang of the calling process. -/
inductive Hangable (a : Type) where
  | result (v : a)
  | hang
deriving Repr, DecidableEq

/-- What subprocess.run reports when it returns: a completed process, or
the raised TimeoutExpired. -/
inductive SubprocOut where
  | completed (rc : Int) (stdout stderr : String)
  | timedOut
deriving Repr, DecidableEq

/-- Oracle for the operating system: how many seconds each argv runs
(none = never terminates), its exit code and captured streams when it
completes, and which script paths exist. -/
structure ProcEnv where
  duration : List String → Option Nat
  rc : List String → Int
  out : List String → String
  err : List String → String
  fileExists : String → Bool

/-- subprocess.run with a timeout argument: a process outliving the
timeout (or never terminating) makes the call raise TimeoutExpired after
at most the timeout — the call itself always returns to the caller. -/
def subprocRunTimeout (env : ProcEnv) (cmd : List String) (t : Nat) :
    SubprocOut :=
  match env.duration cmd with
  | none => SubprocOut.timedOut
  | some d =>
      if d ≤ t then SubprocOut.completed (env.rc cmd) (env.out cmd) (env.err cmd)
      else SubprocOut.timedOut

/-- subprocess.run without a timeout argument: a process that never
terminates hangs the caller forever. -/
def subprocRunNoTimeout (env : ProcEnv) (cmd : List String) :
    Hangable (Int × String × String) :=
  match env.duration cmd with
  | none => Hangable.hang
  | some _ => Hangable.result (env.rc cmd, env.out cmd, env.err cmd)

/-- system.run_python_script: existence check, subprocess.run with the
timeout argument, TimeoutExpired caught into the structured timeout
error dict. Total by type: it can never hang. (execution_time and
timestamp are rendered as 0 in the model.) -/
def run_python_script (env : ProcEnv) (os : OS) (script_path : String)
    (timeout : Nat) : Res :=
  if !(env.fileExists script_path) then
    [("error", JVal.s ("Script not found: " ++ script_path))]
  else
    let python_cmd := if os = OS.windows then "python" else "python3"
    match subprocRunTimeout env [python_cmd, script_path] timeout with
    | SubprocOut.timedOut =>
        [("error", JVal.s ("Script execution timed out after " ++
          toString timeout ++ " seconds"))]
    | SubprocOut.completed rc o e =>
        [("script_path", JVal.s script_path),
         ("platform", JVal.s (osName os)),
         ("python_command", JVal.s python_cmd),
         ("exit_code", JVal.n rc),
         ("stdout", JVal.s o),
         ("stderr", JVal.s e),
         ("execution_time", JVal.n 0),
         ("success", JVal.b (rc == 0)),
         ("timestamp", JVal.n 0)]

/-- Python str.split(): whitespace split dropping empty fields
(restricted to single spaces in the model). -/
def pySplit (s : String) : List String :=
  (s.splitOn " ").filter (fun w => !(w == ""))

/-- system.execute_cli_command: powershell wrapping on Windows, split
into an argv elsewhere; subprocess.run with the timeout argument and
TimeoutExpired caught into the structured timeout error dict. (The
stdout/stderr strip and the working-directory and time strings are
rendered directly from the oracle.) -/
def execute_cli_command (env : ProcEnv) (os : OS) (command : String)
    (timeout : Nat) : Res :=
  let command_list :=
    if os = OS.windows then ["powershell", "-Command", command]
    else pySplit command
  match subprocRunTimeout env command_list timeout with
  | SubprocOut.timedOut =>
      [("error", JVal.s ("Command execution timed out after " ++
        toString timeout ++ " seconds"))]
  | SubprocOut.completed rc o e =>
      [("command", JVal.s command),
       ("platform", JVal.s (osName os)),
       ("exit_code", JVal.n rc),
       ("stdout", JVal.s o),
       ("stderr", JVal.s e),
       ("execution_time", JVal.n 0),
       ("success", JVal.b (rc == 0)),
       ("working_directory", JVal.s ""),
       ("timestamp", JVal.n 0)]

/-- The argv send_system_notification spawns on each platform (the
multi-line PowerShell balloon script of the Windows branch is rendered
abbreviated; only the argv identity matters to the theorems). -/
def notificationCmd (os : OS) (message title : String) : List String :=
  match os with
  | OS.macos => ["osascript", "-e",
      "display notification \"" ++ message ++ "\" with title \"" ++ title ++ "\""]
  | OS.windows => ["powershell", "-Command",
      "New-Object System.Windows.Forms.NotifyIcon balloon " ++ title ++ " " ++ message]
  | OS.linux => ["notify-send", title, message]
  | OS.other _ => []

/-- The platform branch body of send_system_notification: spawn the
notifier with NO timeout argument (a notifier that never terminates
hangs the tool) and on return build the notification dict, which always
carries an error key holding the stderr for a nonzero exit code and
None (null) otherwise. -/
def notifRun (env : ProcEnv) (cmd : List String)
    (message title osn : String) : Hangable Res :=
  match subprocRunNoTimeout env cmd with
  | Hangable.hang => Hangable.hang
  | Hangable.result (rc, o, e) =>
      Hangable.result
        [("message", JVal.s message),
         ("title", JVal.s title),
         ("platform", JVal.s osn),
         ("success", JVal.b (rc == 0)),
         ("error", if rc != 0 then JVal.s e else JVal.null),
         ("timestamp", JVal.n 0)]

/-- system.send_system_notification: unsupported platforms are rejected
with an error dict; the three supported platforms spawn their notifier
through notifRun (no timeout). -/
def send_system_notification (env : ProcEnv) (os : OS)
    (message title : String) : Hangable Res :=
  match os with
  | OS.other n =>
      Hangable.result [("error", JVal.s ("Notifications not supported on " ++ n))]
  | _ => notifRun env (notificationCmd os message title) message title (osName os)

/-- Oracle for requests.get: response time per URL (none = stalls beyond
any bound), HTTP status, content-type header and body text. -/
structure HttpEnv where
  duration : String → Option Nat
  status : String → Int
  contentType : String → String
  body : String → String

/-- Python substring membership (sub in s), via splitting. -/
def strContains (s sub : String) : Bool := !((s.splitOn sub).length == 1)

/-- web_fetcher.fetch_url_content: requests.get(url, timeout=10) bounds
the request at 10 seconds; the raised Timeout (a RequestException) and
raise_for_status on a 4xx/5xx status are both caught into the structured
error dict; a non-text content type is rejected; otherwise the text
content is returned. (The str(e) texts of the caught exceptions are
rendered as fixed tags.) -/
def fetch_url_content (env : HttpEnv) (url : String) : Res :=
  match env.duration url with
  | none => [("error", JVal.s "Failed to fetch URL: timeout")]
  | some d =>
    if 10 < d then [("error", JVal.s "Failed to fetch URL: timeout")]
    else if 400 ≤ env.status url then
      [("error", JVal.s "Failed to fetch URL: http error")]
    else if !(strContains (env.contentType url) "text") then
      [("error", JVal.s ("URL does not point to a text-based document (content-type: " ++
        env.contentType url ++ ")"))]
    else
      [("url", JVal.s url),
       ("content", JVal.s (env.body url)),
       ("status_code", JVal.n (env.status url))]

/-- Process environment in which every spawned process never terminates
and every file exists. -/
def hangEnv : ProcEnv :=
  ⟨fun _ => none, fun _ => 0, fun _ => "", fun _ => "", fun _ => true⟩

/-- Process environment in which every spawned process completes at once
with exit code 0. -/
def quickOkEnv : ProcEnv :=
  ⟨fun _ => some 1, fun _ => 0, fun _ => "", fun _ => "", fun _ => true⟩

/-! ## Result shapes of the remaining registered tools

For the tools whose internals no claim depends on, the embedding records
each return path of the source (its branch condition collapsed into a
branch value and payload data abstracted into a valuation of the keys)
together with the exact top-level keys of each returned dict. -/

/-- The success dict with the given keys, each valued by the oracle. -/
def mkDict (keys : List String) (val : String → JVal) : Res :=
  keys.map (fun k => (k, val k))

/-- Return paths of file_system.read_file_content. -/
inductive ReadFileBranch where
  | notFound (file_path : String)
  | notAFile (file_path : String)
  | tooLarge (file_size : Int)
  | binaryUnsupported (suffix : String)
  | decodeFailed (file_path : String)
  | raised (msg : String)
  | ok

/-- The keys of the success dict of read_file_content. -/
def readFileOkKeys : List String :=
  ["file_path", "file_type", "file_extension", "total_lines",
   "content_lines_read", "content", "file_size", "last_modified",
   "is_truncated"]

def read_file_content (val : String → JVal) : ReadFileBranch → Res
  | ReadFileBranch.notFound p => [("error", JVal.s ("File not found: " ++ p))]
  | ReadFileBranch.notAFile p => [("error", JVal.s ("Path is not a file: " ++ p))]
  | ReadFileBranch.tooLarge n =>
      [("error", JVal.s ("File too large: " ++ toString n ++ " bytes (max 1MB)"))]
  | ReadFileBranch.binaryUnsupported sfx =>
      [("error", JVal.s ("Binary file type not supported: " ++ sfx))]
  | ReadFileBranch.decodeFailed p =>
      [("error", JVal.s ("Cannot decode file as UTF-8: " ++ p))]
  | ReadFileBranch.raised m => [("error", JVal.s ("Failed to read file: " ++ m))]
  | ReadFileBranch.ok => mkDict readFileOkKeys val

/-- Return paths of file_system.write_file_content. -/
inductive WriteFileBranch where
  | raised (msg : String)
  | ok

def writeFileOkKeys : List String :=
  ["file_path", "backup_created", "backup_path", "content_length",
   "lines_written", "timestamp"]

def write_file_content (val : String → JVal) : WriteFileBranch → Res
  | WriteFileBranch.raised m => [("error", JVal.s ("Failed to write file: " ++ m))]
  | WriteFileBranch.ok => mkDict writeFileOkKeys val

/-- Return paths of file_system.list_directory_contents. -/
inductive ListDirBranch where
  | notFound (dir_path : String)
  | notADir (dir_path : String)
  | raised (msg : String)
  | ok

def listDirOkKeys : List String :=
  ["directory_path", "total_files", "total_directories", "total_size",
   "files", "directories", "show_hidden", "scan_timestamp"]

def list_directory_contents (val : String → JVal) : ListDirBranch → Res
  | ListDirBranch.notFound p => [("error", JVal.s ("Directory not found: " ++ p))]
  | ListDirBranch.notADir p => [("error", JVal.s ("Path is not a directory: " ++ p))]
  | ListDirBranch.raised m => [("error", JVal.s ("Failed to list directory: " ++ m))]
  | ListDirBranch.ok => mkDict listDirOkKeys val

/-- Return paths of file_system.find_files. -/
inductive FindFilesBranch where
  | raised (msg : String)
  | ok

def find_files (val : String → JVal) : FindFilesBranch → Res
  | FindFilesBranch.raised m => [("error", JVal.s ("Failed to find files: " ++ m))]
  | FindFilesBranch.ok => mkDict ["files"] val

/-- Return paths of file_system.search_text (unreadable files are skipped
inside the loop, not surfaced). -/
inductive SearchTextBranch where
  | raised (msg : String)
  | ok

def search_text (val : String → JVal) : SearchTextBranch → Res
  | SearchTextBranch.raised m =>
      [("error", JVal.s ("Failed to search for text: " ++ m))]
  | SearchTextBranch.ok => mkDict ["results"] val

/-- Return paths shared by the four MySQL tools: the credentials-prompt
error dict passed through, a MySQL Error, a generic exception, or the
tool-specific success dict. -/
inductive MySqlBranch where
  | credsFailed (msg : String)
  | invalidName
  | mysqlError (msg : String)
  | raised (msg : String)
  | ok

def createDbOkKeys : List String :=
  ["database_name", "mysql_database", "sql_file", "description", "host",
   "created_at", "status"]

def create_mysql_database (val : String → JVal) : MySqlBranch → Res
  | MySqlBranch.credsFailed m =>
      [("error", JVal.s ("Failed to get credentials: " ++ m))]
  | MySqlBranch.invalidName => [("error", JVal.s "Invalid database name")]
  | MySqlBranch.mysqlError m => [("error", JVal.s ("MySQL Error: " ++ m))]
  | MySqlBranch.raised m =>
      [("error", JVal.s ("Failed to create MySQL database: " ++ m))]
  | MySqlBranch.ok => mkDict createDbOkKeys val

def execSqlOkKeys : List String :=
  ["database_name", "mysql_database", "commands_executed", "results",
   "execution_time", "sql_saved"]

def execute_mysql_command (val : String → JVal) : MySqlBranch → Res
  | MySqlBranch.credsFailed m =>
      [("error", JVal.s ("Failed to get credentials: " ++ m))]
  | MySqlBranch.invalidName => [("error", JVal.s "Invalid database name")]
  | MySqlBranch.mysqlError m => [("error", JVal.s ("MySQL Error: " ++ m))]
  | MySqlBranch.raised m =>
      [("error", JVal.s ("Failed to execute MySQL command: " ++ m))]
  | MySqlBranch.ok => mkDict execSqlOkKeys val

def analyzeDbOkKeys : List String :=
  ["database_name", "mysql_database", "total_tables", "total_relationships",
   "tables", "relationships", "educational_analysis", "analysis_timestamp"]

def analyze_mysql_database_structure (val : String → JVal) : MySqlBranch → Res
  | MySqlBranch.credsFailed m =>
      [("error", JVal.s ("Failed to get credentials: " ++ m))]
  | MySqlBranch.invalidName => [("error", JVal.s "Invalid database name")]
  | MySqlBranch.mysqlError m => [("error", JVal.s ("MySQL Error: " ++ m))]
  | MySqlBranch.raised m =>
      [("error", JVal.s ("Failed to analyze MySQL database: " ++ m))]
  | MySqlBranch.ok => mkDict analyzeDbOkKeys val

def listDbOkKeys : List String :=
  ["total_databases", "databases", "mysql_host", "scan_timestamp"]

def list_mysql_databases (val : String → JVal) : MySqlBranch → Res
  | MySqlBranch.credsFailed m =>
      [("error", JVal.s ("Failed to get credentials: " ++ m))]
  | MySqlBranch.invalidName => [("error", JVal.s "Invalid database name")]
  | MySqlBranch.mysqlError m => [("error", JVal.s ("MySQL Error: " ++ m))]
  | MySqlBranch.raised m =>
      [("error", JVal.s ("Failed to list MySQL databases: " ++ m))]
  | MySqlBranch.ok => mkDict listDbOkKeys val

/-- Return paths of system.get_system_info: the psutil metrics are
appended on success, the ImportError fallback appends a note instead. -/
inductive SysInfoBranch where
  | raised (msg : String)
  | okMetrics
  | okNoPsutil

def sysInfoBaseKeys : List String :=
  ["platform", "platform_version", "architecture", "processor", "hostname",
   "python_version", "current_user", "current_directory", "home_directory",
   "timestamp"]

def sysInfoMetricKeys : List String :=
  ["cpu_percent", "memory_total", "memory_available", "memory_percent",
   "disk_usage"]

def get_system_info (val : String → JVal) : SysInfoBranch → Res
  | SysInfoBranch.raised m =>
      [("error", JVal.s ("Failed to get system info: " ++ m))]
  | SysInfoBranch.okMetrics => mkDict (sysInfoBaseKeys ++ sysInfoMetricKeys) val
  | SysInfoBranch.okNoPsutil => mkDict (sysInfoBaseKeys ++ ["note"]) val

/-- Return paths of system.analyze_python_code: the error dict of the
inner read_file_content is passed through unchanged. -/
inductive AnalyzeCodeBranch where
  | readFailed (msg : String)
  | raised (msg : String)
  | ok

def analyzeCodeOkKeys : List String :=
  ["file_path", "total_lines", "imports_count", "functions_count",
   "classes_count", "syntax_valid", "syntax_error", "issues", "suggestions",
   "imports", "functions", "classes", "analysis_timestamp"]

def analyze_python_code (val : String → JVal) : AnalyzeCodeBranch → Res
  | AnalyzeCodeBranch.readFailed m => [("error", JVal.s m)]
  | AnalyzeCodeBranch.raised m =>
      [("error", JVal.s ("Failed to analyze code: " ++ m))]
  | AnalyzeCodeBranch.ok => mkDict analyzeCodeOkKeys val

/-- Return paths of MemoryManager.remember. -/
inductive RememberBranch where
  | dup
  | stored (fact : String)
  | raised (msg : String)

/-- The dict MemoryManager.remember returns: every path reports through a
status field; a raised failure becomes status=error with the message,
never an error key. -/
def rememberResult : RememberBranch → Res
  | RememberBranch.dup =>
      [("status", JVal.s "skipped"),
       ("message", JVal.s "Fact already exists (semantically similar).")]
  | RememberBranch.stored f =>
      [("status", JVal.s "success"), ("message", JVal.s ("Remembered: " ++ f))]
  | RememberBranch.raised m =>
      [("status", JVal.s "error"), ("message", JVal.s m)]

/-- The dict MemoryManager.forget returns for each outcome: every path
reports through a status field; a caught failure becomes status=error
with the message, never an error key. -/
def forgetResult : ForgetOutcome → Res
  | ForgetOutcome.empty =>
      [("status", JVal.s "empty"), ("message", JVal.s "No memories to search.")]
  | ForgetOutcome.notFound =>
      [("status", JVal.s "not_found"),
       ("message", JVal.s "No similar memory found to forget.")]
  | ForgetOutcome.success del =>
      [("status", JVal.s "success"),
       ("message", JVal.s ("Deleted " ++ toString del.length ++
         " similar memory item(s).")),
       ("deleted_facts", JVal.arr (del.map JVal.s))]
  | ForgetOutcome.matchFound found =>
      [("status", JVal.s "match_found"),
       ("message", JVal.s (toString found.length ++
         " similar memory item(s) found.")),
       ("matches", JVal.arr (found.map (fun m =>
         JVal.obj [("fact", JVal.s m.1), ("similarity", JVal.q m.2.1),
                   ("id", JVal.s m.2.2)])))]
  | ForgetOutcome.errorOut m =>
      [("status", JVal.s "error"), ("message", JVal.s m)]

/-! ## Theorems -/

/-- C1: the tool executor never raises for any tool name and argument
mapping: an unregistered name yields the Unknown-function error result, a
handler that raises is contained into the Function-execution-error result,
and a handler that returns normally has its result passed through; being
a total Lean function, execute_function_call lets no handler failure
propagate to the orchestration loop. -/
theorem executor_contains_all_failures (fmap : String → Option Handler)
    (name : String) (args : Args) :
    (fmap name = none →
      execute_function_call fmap name args =
        [("error", JVal.s ("Unknown function: " ++ name))]) ∧
    (∀ h e, fmap name = some h → h args = PyResult.exc e →
      execute_function_call fmap name args =
        [("error", JVal.s ("Function execution error: " ++ e))]) ∧
    (∀ h r, fmap name = some h → h args = PyResult.ok r →
      execute_function_call fmap name args = r) := by
  refine ⟨fun hnone => ?_, fun h e hsome hexc => ?_, fun h r hsome hok => ?_⟩
  · simp [execute_function_call, hnone]
  · simp [execute_function_call, hsome, hexc]
  · simp [execute_function_call, hsome, hok]

theorem executor_contains_all_failures_witness :
    execute_function_call fmapDemo "nope" [] =
      [("error", JVal.s ("Unknown function: " ++ "nope"))] ∧
    execute_function_call fmapDemo "boom" [] =
      [("error", JVal.s ("Function execution error: " ++ "kaput"))] ∧
    execute_function_call fmapDemo "good" [] = [("ok", JVal.b true)] :=
  ⟨(executor_contains_all_failures fmapDemo "nope" []).1 rfl,
   (executor_contains_all_failures fmapDemo "boom" []).2.1 _ "kaput" rfl rfl,
   (executor_contains_all_failures fmapDemo "good" []).2.2 _ _ rfl rfl⟩

/-! ### Loop bookkeeping lemmas -/

theorem processParts_spec (fmap : String → Option Handler) (parts : List RPart) :
    ∀ (hist : List Turn) (ex : Nat) (fc : Bool),
      processParts fmap parts hist ex fc =
        (hist ++ partsDelta fmap parts, ex + countCalls parts, fc || anyCall parts) := by
  induction parts with
  | nil => intro hist ex fc; simp [processParts, partsDelta, countCalls, anyCall]
  | cons p rest ih =>
    intro hist ex fc
    cases p with
    | functionCall n a =>
      simp only [processParts, partsDelta, countCalls]
      rw [ih]
      refine Prod.ext ?_ (Prod.ext ?_ ?_) <;>
        simp [anyCall, List.append_assoc] <;> omega
    | text s =>
      by_cases h : s = ""
      · subst h
        simp only [processParts, partsDelta, countCalls, if_pos rfl]
        rw [ih]
        simp [anyCall]
      · simp only [processParts, partsDelta, countCalls, if_neg h]
        rw [ih]
        simp [anyCall, List.append_assoc]

theorem loopFrom_succ_true (fmap : String → Option Handler) (model : ModelFun)
    (fuel it ex : Nat) (hist : List Turn)
    (h : anyCall (model it hist) = true) :
    loopFrom fmap model (fuel + 1) it ex hist =
      loopFrom fmap model fuel (it + 1) (ex + countCalls (model it hist))
        (hist ++ partsDelta fmap (model it hist)) := by
  simp [loopFrom, processParts_spec, h]

theorem loopFrom_succ_false (fmap : String → Option Handler) (model : ModelFun)
    (fuel it ex : Nat) (hist : List Turn)
    (h : anyCall (model it hist) = false) :
    loopFrom fmap model (fuel + 1) it ex hist =
      (it + 1, ex + countCalls (model it hist),
        hist ++ partsDelta fmap (model it hist)) := by
  simp [loopFrom, processParts_spec, h]

theorem anyCall_false_countCalls (ps : List RPart) (h : anyCall ps = false) :
    countCalls ps = 0 := by
  induction ps with
  | nil => rfl
  | cons p rest ih =>
    cases p with
    | functionCall n a => exact absurd h (by simp [anyCall])
    | text s =>
      have h2 : anyCall rest = false := by simpa [anyCall] using h
      simpa [countCalls] using ih h2

theorem anyCall_true_of_countCalls (ps : List RPart) (h : countCalls ps = 1) :
    anyCall ps = true := by
  cases hA : anyCall ps
  · have := anyCall_false_countCalls ps hA
    omega
  · rfl

/-! ### Adjacency-invariant lemmas -/

theorem pairOK_of_not_fn (prev t : Turn) (h : t.role ≠ Role.function) :
    pairOK prev t = true := by
  obtain ⟨r, c⟩ := t
  cases r <;> cases c <;> simp_all [pairOK]

theorem adjOK_append (d : List Turn) (hdwf : blocksWF d = true) :
    ∀ (h : List Turn) (prev : Turn), adjOK prev h = true →
      adjOK prev (h ++ d) = true := by
  intro h
  induction h with
  | nil =>
    intro prev _
    cases d with
    | nil => rfl
    | cons t rest =>
      simp only [blocksWF, Bool.and_eq_true] at hdwf
      simp only [List.nil_append, adjOK, Bool.and_eq_true]
      refine ⟨pairOK_of_not_fn prev t ?_, hdwf.2⟩
      simpa using hdwf.1
  | cons x hs ih =>
    intro prev hadj
    simp only [adjOK, Bool.and_eq_true] at hadj
    simp only [List.cons_append, adjOK, Bool.and_eq_true]
    exact ⟨hadj.1, ih x hadj.2⟩

theorem blocksWF_append (h d : List Turn) (hwf : blocksWF h = true)
    (hdwf : blocksWF d = true) : blocksWF (h ++ d) = true := by
  cases h with
  | nil => simpa using hdwf
  | cons t hs =>
    simp only [blocksWF, Bool.and_eq_true] at hwf
    simp only [List.cons_append, blocksWF, Bool.and_eq_true]
    exact ⟨hwf.1, adjOK_append d hdwf hs t hwf.2⟩

theorem adjOK_partsDelta (fmap : String → Option Handler) (parts : List RPart) :
    ∀ prev, adjOK prev (partsDelta fmap parts) = true := by
  induction parts with
  | nil => intro prev; rfl
  | cons p rest ih =>
    intro prev
    cases p with
    | functionCall n a =>
      simp only [partsDelta, adjOK, Bool.and_eq_true]
      refine ⟨?_, ?_, ih _⟩
      · rfl
      · simp [pairOK]
    | text s =>
      by_cases h : s = ""
      · simpa [partsDelta, h] using ih prev
      · simp only [partsDelta, if_neg h, List.singleton_append, adjOK, Bool.and_eq_true]
        exact ⟨rfl, ih _⟩

theorem blocksWF_partsDelta (fmap : String → Option Handler) (parts : List RPart) :
    blocksWF (partsDelta fmap parts) = true := by
  cases hd : partsDelta fmap parts with
  | nil => rfl
  | cons t rest =>
    have hadj : adjOK t (t :: rest) = true := by
      rw [← hd]; exact adjOK_partsDelta fmap parts t
    simp only [adjOK, Bool.and_eq_true] at hadj
    have hrole : t.role ≠ Role.function := by
      have : pairOK t t = true := hadj.1
      obtain ⟨r, c⟩ := t
      cases r <;> cases c <;> simp_all [pairOK]
    simp only [blocksWF, Bool.and_eq_true]
    exact ⟨by simpa using hrole, hadj.2⟩

theorem loopFrom_blocksWF (fmap : String → Option Handler) (model : ModelFun) :
    ∀ (fuel it ex : Nat) (hist : List Turn), blocksWF hist = true →
      blocksWF (loopFrom fmap model fuel it ex hist).2.2 = true := by
  intro fuel
  induction fuel with
  | zero => intro it ex hist hwf; simpa [loopFrom] using hwf
  | succ fuel ih =>
    intro it ex hist hwf
    have hstep : blocksWF (hist ++ partsDelta fmap (model it hist)) = true :=
      blocksWF_append _ _ hwf (blocksWF_partsDelta fmap _)
    simp only [loopFrom, processParts_spec]
    by_cases hfc : anyCall (model it hist) = true
    · simp only [hfc, Bool.false_or, if_pos rfl]
      exact ih (it + 1) _ _ hstep
    · simp only [Bool.not_eq_true] at hfc
      simp only [hfc, Bool.false_or, Bool.false_eq_true, if_false]
      exact hstep

theorem cycle_blocksWF (fmap : String → Option Handler) (model : ModelFun)
    (maxIter : Nat) (hist0 : List Turn) (hwf : blocksWF hist0 = true) :
    blocksWF (processingCycle fmap model maxIter hist0).hist = true :=
  loopFrom_blocksWF fmap model maxIter 0 0 hist0 hwf

theorem hasEarlierCall_mono (pre add : List Turn) (n : String)
    (h : hasEarlierCall pre n = true) : hasEarlierCall (pre ++ add) n = true := by
  simp only [hasEarlierCall, List.any_append, Bool.or_eq_true]
  exact Or.inl h

theorem noOrphanAux_of_adjOK : ∀ (l : List Turn) (prev : Turn) (pre : List Turn),
    adjOK prev l = true → prev ∈ pre → noOrphanAux pre l = true := by
  intro l
  induction l with
  | nil => intro prev pre _ _; rfl
  | cons t rest ih =>
    intro prev pre hadj hmem
    simp only [adjOK, Bool.and_eq_true] at hadj
    simp only [noOrphanAux, Bool.and_eq_true]
    refine ⟨?_, ih t (pre ++ [t]) hadj.2 (by simp)⟩
    obtain ⟨r, c⟩ := t
    cases r <;> cases c <;> try rfl
    case function.fnResp n res =>
      have hpair := hadj.1
      obtain ⟨pr, pc⟩ := prev
      cases pr <;> cases pc <;> simp [pairOK] at hpair
      case model.call n2 a =>
        simp only [hasEarlierCall, List.any_eq_true]
        exact ⟨⟨Role.model, TContent.call n2 a⟩, hmem, by simp [hpair]⟩

theorem noOrphan_of_blocksWF (l : List Turn) (hwf : blocksWF l = true) :
    noOrphan l = true := by
  cases l with
  | nil => rfl
  | cons t rest =>
    simp only [blocksWF, Bool.and_eq_true] at hwf
    simp only [noOrphan, noOrphanAux, Bool.and_eq_true]
    refine ⟨?_, ?_⟩
    · obtain ⟨r, c⟩ := t
      cases r with
      | user => rfl
      | model => rfl
      | function => simp at hwf
    · exact noOrphanAux_of_adjOK rest t ([] ++ [t]) hwf.2 (by simp)

theorem blocksWF_userTurns (recalled : List String) (input : String) :
    blocksWF (recallTurns recalled ++ [⟨Role.user, TContent.text input⟩]) = true := by
  unfold recallTurns
  by_cases h : recalled = [] <;> simp [h, blocksWF, adjOK, pairOK]

/-- C2: turn-ordering invariant of the conversation history: starting from
the fixed greeting turns, after any sequence of outer-loop rounds (memory
context turn, user turn, one full Processing cycle each) the history never
contains a function-role tool-result turn without an earlier model-role
turn requesting the same tool (noOrphan), and every tool-result turn is
the immediate successor of its matching model tool-call turn (blocksWF). -/
theorem session_turn_ordering (fmap : String → Option Handler) (maxIter : Nat)
    (steps : List SessionStep) :
    blocksWF (sessionHistory fmap maxIter steps) = true ∧
    noOrphan (sessionHistory fmap maxIter steps) = true := by
  have key : ∀ (l : List SessionStep) (h : List Turn), blocksWF h = true →
      blocksWF (l.foldl (sessionStep fmap maxIter) h) = true := by
    intro l
    induction l with
    | nil => intro h hh; simpa using hh
    | cons st rest ih =>
      intro h hh
      simp only [List.foldl_cons]
      apply ih
      unfold sessionStep
      apply cycle_blocksWF
      rw [List.append_assoc]
      exact blocksWF_append _ _ hh (blocksWF_userTurns st.recalled st.input)
  have hwf : blocksWF (sessionHistory fmap maxIter steps) = true :=
    key steps initialHistory (by rfl)
  exact ⟨hwf, noOrphan_of_blocksWF _ hwf⟩

theorem loopFrom_allCalls (fmap : String → Option Handler) (model : ModelFun)
    (h : ∀ k hist, anyCall (model k hist) = true) :
    ∀ (fuel it ex : Nat) (hist : List Turn),
      (loopFrom fmap model fuel it ex hist).1 = it + fuel := by
  intro fuel
  induction fuel with
  | zero => intro it ex hist; simp [loopFrom]
  | succ fuel ih =>
    intro it ex hist
    rw [loopFrom_succ_true fmap model fuel it ex hist (h it hist), ih]
    omega

/-- C3: for a model that returns a tool-call part in every response, one
Processing cycle performs exactly MAX_ITERATIONS model calls and then the
limit-reached notice fires; the loop is a total function, so control
returns to the caller without raising. -/
theorem loop_hits_iteration_ceiling (fmap : String → Option Handler)
    (model : ModelFun) (maxIter : Nat) (hist0 : List Turn)
    (h : ∀ k hist, anyCall (model k hist) = true) :
    (processingCycle fmap model maxIter hist0).modelCalls = maxIter ∧
    (processingCycle fmap model maxIter hist0).limitNotice = true := by
  have h1 := loopFrom_allCalls fmap model h maxIter 0 0 hist0
  constructor
  · simpa [processingCycle] using h1
  · simp [processingCycle, h1]

theorem loop_hits_iteration_ceiling_witness :
    (processingCycle fmapDemo modelAlwaysCall 3 []).modelCalls = 3 ∧
    (processingCycle fmapDemo modelAlwaysCall 3 []).limitNotice = true :=
  loop_hits_iteration_ceiling fmapDemo modelAlwaysCall 3 [] (fun _ _ => rfl)

theorem loopFrom_calls_then_text (fmap : String → Option Handler)
    (model : ModelFun) :
    ∀ (m fuel it ex : Nat) (hist : List Turn), m < fuel →
    (∀ j hist2, j < m → countCalls (model (it + j) hist2) = 1) →
    (∀ hist2, anyCall (model (it + m) hist2) = false) →
    (loopFrom fmap model fuel it ex hist).1 = it + m + 1 ∧
    (loopFrom fmap model fuel it ex hist).2.1 = ex + m := by
  intro m
  induction m with
  | zero =>
    intro fuel it ex hist hlt hc hlast
    match fuel, hlt with
    | fuel + 1, _ =>
      have hz : anyCall (model it hist) = false := by simpa using hlast hist
      have hc0 : countCalls (model it hist) = 0 := anyCall_false_countCalls _ hz
      simp [loopFrom, processParts_spec, hz, hc0]
  | succ m ih =>
    intro fuel it ex hist hlt hc hlast
    match fuel, hlt with
    | fuel + 1, _ =>
      have hone : countCalls (model it hist) = 1 := by
        simpa using hc 0 hist (Nat.succ_pos m)
      have hany : anyCall (model it hist) = true := anyCall_true_of_countCalls _ hone
      rw [loopFrom_succ_true fmap model fuel it ex hist hany, hone]
      have hrec := ih fuel (it + 1) (ex + 1)
        (hist ++ partsDelta fmap (model it hist)) (by omega)
        (by
          intro j hist2 hj
          have e : it + 1 + j = it + (j + 1) := by omega
          rw [e]
          exact hc (j + 1) hist2 (by omega))
        (by
          intro hist2
          have e : it + 1 + m = it + (m + 1) := by omega
          rw [e]
          exact hlast hist2)
      exact ⟨by rw [hrec.1]; omega, by rw [hrec.2]; omega⟩

/-- C4 counterexample: with the default MAX_ITERATIONS = 15 and a scripted
model that returns N = 14 responses with exactly one tool-call part each
and then a text-only response, the loop performs 15 model calls and 14
tool executions and terminates through the no-tool-call branch, yet the
limit-reached notice IS emitted (iteration = 15 >= MAX_ITERATIONS), so the
claim fails at N = 14. -/
theorem loop_n_tools_then_final_text_cex :
    (processingCycle fmapDemo (modelNThenText 14) 15 []).modelCalls = 14 + 1 ∧
    (processingCycle fmapDemo (modelNThenText 14) 15 []).toolExecs = 14 ∧
    (processingCycle fmapDemo (modelNThenText 14) 15 []).limitNotice = true := by
  refine ⟨?_, ?_, ?_⟩ <;> rfl

/-- C4 (amended): for every N with N + 1 < MAX_ITERATIONS, a scripted
model returning N responses with exactly one tool-call part each followed
by a response with no tool-call part drives one Processing cycle to
exactly N tool executions and N + 1 model calls, terminating normally
without the limit-reached notice. (When N + 1 = MAX_ITERATIONS the counts
still hold but the notice is also emitted, and for N >= MAX_ITERATIONS the
loop stops at MAX_ITERATIONS model calls.) -/
theorem loop_n_tools_then_final_text (fmap : String → Option Handler)
    (model : ModelFun) (maxIter N : Nat) (hist0 : List Turn)
    (hend : N + 1 < maxIter)
    (hc : ∀ j hist2, j < N → countCalls (model j hist2) = 1)
    (hlast : ∀ hist2, anyCall (model N hist2) = false) :
    (processingCycle fmap model maxIter hist0).modelCalls = N + 1 ∧
    (processingCycle fmap model maxIter hist0).toolExecs = N ∧
    (processingCycle fmap model maxIter hist0).limitNotice = false := by
  have h := loopFrom_calls_then_text fmap model N maxIter 0 0 hist0 (by omega)
    (by intro j hist2 hj; simpa using hc j hist2 hj)
    (by intro hist2; simpa using hlast hist2)
  refine ⟨by simpa [processingCycle] using h.1, by simpa [processingCycle] using h.2, ?_⟩
  simp only [processingCycle, h.1, decide_eq_false_iff_not, Nat.not_le]
  omega

theorem loop_n_tools_then_final_text_witness :
    (processingCycle fmapDemo (modelNThenText 2) 15 []).modelCalls = 2 + 1 ∧
    (processingCycle fmapDemo (modelNThenText 2) 15 []).toolExecs = 2 ∧
    (processingCycle fmapDemo (modelNThenText 2) 15 []).limitNotice = false :=
  loop_n_tools_then_final_text fmapDemo (modelNThenText 2) 15 2 []
    (by omega)
    (by intro j hist2 hj; simp [modelNThenText, hj, countCalls])
    (by intro hist2; simp [modelNThenText, anyCall])

/-! ### Memory-manager lemmas and theorems -/

theorem mem_of_mem_nearestEntries (env : MemEnv) (query : String)
    (topN : Nat) (entries : List MemEntry) (e : MemEntry)
    (he : e ∈ nearestEntries env query topN entries) : e ∈ entries := by
  have h1 : e ∈ entries.insertionSort
      (fun a b => env.sim query b.doc ≤ env.sim query a.doc) :=
    List.take_subset _ _ he
  exact (List.perm_insertionSort _ entries).mem_iff.mp h1

/-- C6: recall never raises: on an empty store or when the underlying
embedding computation fails it returns the empty list rather than
propagating an exception, and on success it returns exactly the documents
of a selection sel of stored entries with sel together with the remaining
entries rest forming the whole store, sel of maximal size up to top_n,
sel ordered by non-increasing similarity to the query, and every selected
entry at least as similar to the query as every non-selected one. -/
theorem recall_total_and_most_similar (env : MemEnv) (store : MemStore)
    (query : String) (topN : Nat) :
    (store.entries = [] → recallM env store query topN = []) ∧
    (env.encodeFails query = true → recallM env store query topN = []) ∧
    (store.entries ≠ [] → env.encodeFails query = false →
      ∃ (sel rest : List MemEntry), (sel ++ rest).Perm store.entries ∧
        recallM env store query topN = sel.map (·.doc) ∧
        sel.length = min topN store.entries.length ∧
        sel.Pairwise (fun a b => env.sim query b.doc ≤ env.sim query a.doc) ∧
        ∀ x ∈ sel, ∀ y ∈ rest, env.sim query y.doc ≤ env.sim query x.doc) := by
  refine ⟨fun h => by simp [recallM, h], fun h => by simp [recallM, h], ?_⟩
  intro hne hf
  set r : MemEntry → MemEntry → Prop :=
    fun a b => env.sim query b.doc ≤ env.sim query a.doc with hrdef
  letI : IsTotal MemEntry r :=
    ⟨fun a b => le_total (env.sim query b.doc) (env.sim query a.doc)⟩
  letI : IsTrans MemEntry r :=
    ⟨fun a b c hab hbc => le_trans hbc hab⟩
  have hsorted : (store.entries.insertionSort
      (fun a b => env.sim query b.doc ≤ env.sim query a.doc)).Sorted r :=
    List.sorted_insertionSort r store.entries
  have hperm := List.perm_insertionSort
    (fun a b => env.sim query b.doc ≤ env.sim query a.doc) store.entries
  refine ⟨nearestEntries env query topN store.entries,
    (store.entries.insertionSort
      (fun a b => env.sim query b.doc ≤ env.sim query a.doc)).drop topN,
    ?_, ?_, ?_, ?_, ?_⟩
  · unfold nearestEntries
    rw [List.take_append_drop]
    exact hperm
  · have hemp : store.entries.isEmpty = false := by
      cases hstore : store.entries with
      | nil => exact absurd hstore hne
      | cons a l => rfl
    simp [recallM, hemp, hf]
  · unfold nearestEntries
    rw [List.length_take, hperm.length_eq]
  · exact List.Pairwise.sublist (List.take_sublist _ _) hsorted
  · intro x hx y hy
    have hp : ((store.entries.insertionSort
        (fun a b => env.sim query b.doc ≤ env.sim query a.doc)).take topN ++
        (store.entries.insertionSort
        (fun a b => env.sim query b.doc ≤ env.sim query a.doc)).drop topN).Pairwise r := by
      rw [List.take_append_drop]
      exact hsorted
    exact (List.pairwise_append.mp hp).2.2 x hx y hy

theorem recall_total_and_most_similar_witness :
    ∃ (sel rest : List MemEntry), (sel ++ rest).Perm storeRecallDemo.entries ∧
      recallM envRecallDemo storeRecallDemo "q" 1 = sel.map (·.doc) ∧
      sel.length = min 1 storeRecallDemo.entries.length ∧
      sel.Pairwise (fun a b =>
        envRecallDemo.sim "q" b.doc ≤ envRecallDemo.sim "q" a.doc) ∧
      ∀ x ∈ sel, ∀ y ∈ rest,
        envRecallDemo.sim "q" y.doc ≤ envRecallDemo.sim "q" x.doc :=
  (recall_total_and_most_similar envRecallDemo storeRecallDemo "q" 1).2.2
    (by simp [storeRecallDemo]) rfl

theorem forgetLoop_store_false (env : MemEnv) (fact : String) (threshold : Rat) :
    ∀ (cands : List MemEntry) (st : MemStore) (deleted : List String)
      (matched : List (String × Rat × String)),
      (forgetLoop env fact false threshold cands st deleted matched).store = st := by
  intro cands
  induction cands with
  | nil => intro st d m; rfl
  | cons e rest ih =>
    intro st d m
    simp only [forgetLoop]
    by_cases hf : env.encodeFails e.doc = true
    · simp [hf, LoopStep.store]
    · simp only [Bool.not_eq_true] at hf
      by_cases hs : threshold ≤ env.sim fact e.doc
      · simp [hf, hs, ih]
      · simp [hf, hs, ih]

theorem forgetLoop_noFail (env : MemEnv) (fact : String) (threshold : Rat)
    (confirm : Bool) :
    ∀ (cands : List MemEntry) (st : MemStore) (deleted : List String)
      (matched : List (String × Rat × String)),
      (∀ e ∈ cands, env.encodeFails e.doc = false) →
      forgetLoop env fact confirm threshold cands st deleted matched =
        LoopStep.done
          (if confirm then
            ⟨st.entries.filter (fun x =>
              !(((cands.filter (fun e => decide (threshold ≤ env.sim fact e.doc))).map
                  (fun e => e.id)).contains x.id))⟩
           else st)
          (deleted ++ if confirm then
            (cands.filter (fun e => decide (threshold ≤ env.sim fact e.doc))).map
              (fun e => e.doc)
           else [])
          (matched ++ (cands.filter (fun e => decide (threshold ≤ env.sim fact e.doc))).map
            (fun e => (e.doc, round3 (env.sim fact e.doc), e.id))) := by
  intro cands
  induction cands with
  | nil =>
    intro st deleted matched h
    cases confirm <;> simp [forgetLoop]
  | cons e rest ih =>
    intro st deleted matched h
    have hf : env.encodeFails e.doc = false := h e (by simp)
    have hrest : ∀ x ∈ rest, env.encodeFails x.doc = false :=
      fun x hx => h x (by simp [hx])
    simp only [forgetLoop, hf, Bool.false_eq_true, if_false]
    by_cases hs : threshold ≤ env.sim fact e.doc
    · rw [if_pos hs,
        @List.filter_cons_of_pos MemEntry
          (fun x => decide (threshold ≤ env.sim fact x.doc)) e rest
          (decide_eq_true hs)]
      cases confirm with
      | true =>
        simp only [eq_self_iff_true, if_true]
        rw [ih (deleteId st e.id) (deleted ++ [e.doc]) _ hrest]
        simp only [eq_self_iff_true, if_true, List.map_cons, List.append_assoc,
          List.singleton_append]
        congr 1
        simp only [deleteId, List.filter_filter]
        refine congrArg MemStore.mk ?_
        apply List.filter_congr
        intro x hx
        simp [List.contains_cons, Bool.not_or, Bool.and_comm]
      | false =>
        simp only [Bool.false_eq_true, if_false]
        rw [ih st deleted _ hrest]
        simp [List.append_assoc]
    · rw [if_neg hs,
        @List.filter_cons_of_neg MemEntry
          (fun x => decide (threshold ≤ env.sim fact x.doc)) e rest
          (by simpa using hs)]
      exact ih st deleted matched hrest

theorem noFail_nearest (env : MemEnv) (fact : String) (topN : Nat)
    (store : MemStore)
    (h : ∀ e ∈ store.entries, env.encodeFails e.doc = false) :
    ∀ e ∈ nearestEntries env fact topN store.entries,
      env.encodeFails e.doc = false :=
  fun e he => h e (mem_of_mem_nearestEntries env fact topN store.entries e he)

/-- C7: forget with confirm=false never mutates the store, whatever the
inputs or failures; and when no encoding fails and the store is nonempty,
forget with confirm=true deletes exactly the candidates among the top_n
nearest whose similarity is at or above the threshold, reporting their
texts as deleted_facts (status not_found when no candidate clears the
threshold), while forget with confirm=false only reports the matches
(status not_found in the same no-hit case). -/
theorem forget_preview_vs_confirm (env : MemEnv) (store : MemStore)
    (fact : String) (threshold : Rat) (topN : Nat) :
    (forget env store fact false threshold topN).2 = store ∧
    (env.encodeFails fact = false →
     (∀ e ∈ store.entries, env.encodeFails e.doc = false) →
     store.entries ≠ [] →
      (forget env store fact true threshold topN =
        (if thresholdHits env fact threshold topN store.entries = []
         then (ForgetOutcome.notFound, store)
         else
          (ForgetOutcome.success
            ((thresholdHits env fact threshold topN store.entries).map
              (fun e => e.doc)),
           ⟨store.entries.filter (fun x =>
             !(((thresholdHits env fact threshold topN store.entries).map
                 (fun e => e.id)).contains x.id))⟩))) ∧
      ((forget env store fact false threshold topN).1 =
        if thresholdHits env fact threshold topN store.entries = []
        then ForgetOutcome.notFound
        else ForgetOutcome.matchFound
          ((thresholdHits env fact threshold topN store.entries).map
            (fun e => (e.doc, round3 (env.sim fact e.doc), e.id))))) := by
  constructor
  · by_cases hemp : store.entries.isEmpty = true
    · simp [forget, hemp]
    · simp only [Bool.not_eq_true] at hemp
      by_cases hf : env.encodeFails fact = true
      · simp [forget, hemp, hf]
      · simp only [Bool.not_eq_true] at hf
        have hst := forgetLoop_store_false env fact threshold
          (nearestEntries env fact topN store.entries) store [] []
        rcases hL : forgetLoop env fact false threshold
            (nearestEntries env fact topN store.entries) store [] [] with
          ⟨st, d, m⟩ | ⟨st, msg⟩
        · rw [hL] at hst
          simp only [LoopStep.store] at hst
          by_cases hm : m.isEmpty = true <;>
            simp [forget, hemp, hf, hL, hm, hst]
        · rw [hL] at hst
          simp only [LoopStep.store] at hst
          simp [forget, hemp, hf, hL, hst]
  · intro hf hall hne
    have hemp : store.entries.isEmpty = false := by
      cases hstore : store.entries with
      | nil => exact absurd hstore hne
      | cons a l => rfl
    have hLoopT := forgetLoop_noFail env fact threshold true
      (nearestEntries env fact topN store.entries) store [] []
      (noFail_nearest env fact topN store hall)
    have hLoopF := forgetLoop_noFail env fact threshold false
      (nearestEntries env fact topN store.entries) store [] []
      (noFail_nearest env fact topN store hall)
    simp only [eq_self_iff_true, if_true, Bool.false_eq_true, if_false,
      List.nil_append] at hLoopT hLoopF
    constructor
    · by_cases hh : thresholdHits env fact threshold topN store.entries = []
      · have hhits : (nearestEntries env fact topN store.entries).filter
            (fun e => decide (threshold ≤ env.sim fact e.doc)) = [] := hh
        simp [forget, hemp, hf, hLoopT, hhits, hh]
      · have hne2 : (nearestEntries env fact topN store.entries).filter
            (fun e => decide (threshold ≤ env.sim fact e.doc)) ≠ [] := hh
        simp [forget, hemp, hf, hLoopT, hh, thresholdHits, hne2]
    · by_cases hh : thresholdHits env fact threshold topN store.entries = []
      · have hhits : (nearestEntries env fact topN store.entries).filter
            (fun e => decide (threshold ≤ env.sim fact e.doc)) = [] := hh
        simp [forget, hemp, hf, hLoopF, hhits, hh]
      · have hne2 : (nearestEntries env fact topN store.entries).filter
            (fun e => decide (threshold ≤ env.sim fact e.doc)) ≠ [] := hh
        simp [forget, hemp, hf, hLoopF, hh, thresholdHits, hne2]

theorem forget_preview_vs_confirm_witness :
    (forget envForgetDemo storeForgetDemo "x" false (1/2) 3).2 = storeForgetDemo ∧
    (forget envForgetDemo storeForgetDemo "x" true (1/2) 3 =
      (if thresholdHits envForgetDemo "x" (1/2) 3 storeForgetDemo.entries = []
       then (ForgetOutcome.notFound, storeForgetDemo)
       else
        (ForgetOutcome.success
          ((thresholdHits envForgetDemo "x" (1/2) 3 storeForgetDemo.entries).map
            (fun e => e.doc)),
         ⟨storeForgetDemo.entries.filter (fun x =>
           !(((thresholdHits envForgetDemo "x" (1/2) 3 storeForgetDemo.entries).map
               (fun e => e.id)).contains x.id))⟩))) ∧
    ((forget envForgetDemo storeForgetDemo "x" false (1/2) 3).1 =
      if thresholdHits envForgetDemo "x" (1/2) 3 storeForgetDemo.entries = []
      then ForgetOutcome.notFound
      else ForgetOutcome.matchFound
        ((thresholdHits envForgetDemo "x" (1/2) 3 storeForgetDemo.entries).map
          (fun e => (e.doc, round3 (envForgetDemo.sim "x" e.doc), e.id)))) := by
  have h := forget_preview_vs_confirm envForgetDemo storeForgetDemo "x" (1/2) 3
  have h2 := h.2 rfl (fun e _ => rfl) (by simp [storeForgetDemo])
  exact ⟨h.1, h2.1, h2.2⟩

/-! ### Trash-bin theorems -/

/-- C9: the confirm parameter of clean_old_trash_files has no effect: the
body never reads it, so for every platform, trash state and threshold the
returned result dict and the deletions performed on the state coincide
for confirm=true and confirm=false; passing confirm=false does not
prevent deletion. -/
theorem clean_old_trash_files_confirm_no_effect (os : OS) (st : FSState)
    (days : Int) :
    clean_old_trash_files os st days true =
      clean_old_trash_files os st days false := rfl

theorem cleanLoop_deleted_le (l : List TrashItem) :
    ∀ items, (cleanLoop l items).1.length ≤ l.length := by
  induction l with
  | nil => intro items; simp [cleanLoop]
  | cons f rest ih =>
    intro items
    simp only [cleanLoop]
    by_cases hp : pathExists items f.path = true
    · by_cases hd : f.deleteOK = true
      · simp only [hp, hd, eq_self_iff_true, if_true, List.length_cons]
        exact Nat.succ_le_succ (ih _)
      · simp only [Bool.not_eq_true] at hd
        simp only [hp, hd, eq_self_iff_true, if_true, Bool.false_eq_true, if_false]
        exact Nat.le_succ_of_le (ih _)
    · simp only [Bool.not_eq_true] at hp
      simp only [hp, Bool.false_eq_true, if_false]
      exact Nat.le_succ_of_le (ih _)

/-- C10: clean_old_trash_files deletes at most 20 items per invocation:
its result is either the error passthrough or reports deleted_count at
most 20, because it iterates over the old_files listing that
check_trash_bin truncated to its first 20 entries; concretely, on a trash
state with 21 qualifying one-byte files, check_trash_bin reports
old_files_count = 21 and size_to_free = 21 (summed over all qualifying
files) while the clean pass deletes 20 files and frees only 20 bytes. -/
theorem clean_truncated_to_20 :
    (∀ (os : OS) (st : FSState) (days : Int) (confirm : Bool),
      (∃ v, resGet (clean_old_trash_files os st days confirm).1 "error" = some v) ∨
      (∃ k : Int, resGet (clean_old_trash_files os st days confirm).1 "deleted_count" =
          some (JVal.n k) ∧ k ≤ 20)) ∧
    resGet (check_trash_bin OS.linux stTrashDemo 10) "old_files_count" =
      some (JVal.n 21) ∧
    resGet (check_trash_bin OS.linux stTrashDemo 10) "size_to_free" =
      some (JVal.n 21) ∧
    resGet (clean_old_trash_files OS.linux stTrashDemo 10 true).1 "deleted_count" =
      some (JVal.n 20) ∧
    resGet (clean_old_trash_files OS.linux stTrashDemo 10 true).1 "space_freed_bytes" =
      some (JVal.n 20) := by
  refine ⟨?_, rfl, rfl, rfl, rfl⟩
  intro os st days confirm
  by_cases herr : (resGet (check_trash_bin os st days) "error").isSome = true
  · left
    simp only [clean_old_trash_files, herr, eq_self_iff_true, if_true]
    exact Option.isSome_iff_exists.mp herr
  · right
    simp only [Bool.not_eq_true] at herr
    by_cases hold : ((oldFiles st days).take 20).isEmpty = true
    · refine ⟨0, ?_, by norm_num⟩
      simp [clean_old_trash_files, herr, hold, resGet]
    · simp only [Bool.not_eq_true] at hold
      refine ⟨((cleanLoop ((oldFiles st days).take 20) st.items).1.length : Int), ?_, ?_⟩
      · simp [clean_old_trash_files, herr, hold, resGet]
      · have h1 := cleanLoop_deleted_le ((oldFiles st days).take 20) st.items
        have h2 : ((oldFiles st days).take 20).length ≤ 20 :=
          List.length_take_le 20 (oldFiles st days)
        exact_mod_cast le_trans h1 h2

/-! ### Timeout-enforcement theorem -/

/-- C8: the claim that every subprocess-invoking tool passes a timeout
and catches TimeoutExpired is violated by send_system_notification,
which calls subprocess.run with no timeout argument on every platform:
under an environment whose notifier process never terminates the tool
hangs the process, whereas at the same environment run_python_script and
execute_cli_command (which do pass their timeout) return the structured
timeout error dicts, and fetch_url_content bounds its request at 10
seconds and returns a structured error. -/
theorem notification_lacks_timeout_and_hangs :
    send_system_notification hangEnv OS.linux "hello" "System Agent" =
      Hangable.hang ∧
    run_python_script hangEnv OS.linux "/tmp/s.py" 30 =
      [("error", JVal.s "Script execution timed out after 30 seconds")] ∧
    execute_cli_command hangEnv OS.linux "sleep 1000" 30 =
      [("error", JVal.s "Command execution timed out after 30 seconds")] ∧
    fetch_url_content ⟨fun _ => none, fun _ => 200, fun _ => "text/html", fun _ => ""⟩
        "http://example.com" =
      [("error", JVal.s "Failed to fetch URL: timeout")] :=
  ⟨rfl, rfl, rfl, rfl⟩

/-! ### Result-shape theorems -/

theorem wellShaped_errDict (m : String) : wellShaped [("error", JVal.s m)] :=
  Or.inr ⟨m, rfl⟩

theorem check_trash_bin_wellShaped (os : OS) (st : FSState) (days : Int) :
    wellShaped (check_trash_bin os st days) := by
  cases os with
  | macos =>
    by_cases h : st.trashExists = true
    · simp only [check_trash_bin, h, eq_self_iff_true, if_true]
      exact Or.inl rfl
    · simp only [Bool.not_eq_true] at h
      simp only [check_trash_bin, h, Bool.false_eq_true, if_false]
      exact wellShaped_errDict _
  | windows =>
    by_cases h1 : st.winRecycleFound = true
    · by_cases h2 : st.trashExists = true
      · simp only [check_trash_bin, h1, h2, eq_self_iff_true, if_true]
        exact Or.inl rfl
      · simp only [Bool.not_eq_true] at h2
        simp only [check_trash_bin, h1, h2, eq_self_iff_true, if_true,
          Bool.false_eq_true, if_false]
        exact wellShaped_errDict _
    · simp only [Bool.not_eq_true] at h1
      simp only [check_trash_bin, h1, Bool.false_eq_true, if_false]
      exact wellShaped_errDict _
  | linux =>
    by_cases h : st.trashExists = true
    · simp only [check_trash_bin, h, eq_self_iff_true, if_true]
      exact Or.inl rfl
    · simp only [Bool.not_eq_true] at h
      simp only [check_trash_bin, h, Bool.false_eq_true, if_false]
      exact wellShaped_errDict _
  | other n => exact wellShaped_errDict _

theorem clean_old_trash_files_wellShaped (os : OS) (st : FSState)
    (days : Int) (confirm : Bool) :
    wellShaped (clean_old_trash_files os st days confirm).1 := by
  by_cases herr : (resGet (check_trash_bin os st days) "error").isSome = true
  · simp only [clean_old_trash_files, herr, eq_self_iff_true, if_true]
    exact check_trash_bin_wellShaped os st days
  · simp only [Bool.not_eq_true] at herr
    by_cases hold : ((oldFiles st days).take 20).isEmpty = true
    · simp only [clean_old_trash_files, herr, Bool.false_eq_true, if_false,
        hold, eq_self_iff_true, if_true]
      exact Or.inl rfl
    · simp only [Bool.not_eq_true] at hold
      simp only [clean_old_trash_files, herr, hold, Bool.false_eq_true, if_false]
      exact Or.inl rfl

theorem run_python_script_wellShaped (env : ProcEnv) (os : OS)
    (p : String) (t : Nat) : wellShaped (run_python_script env os p t) := by
  by_cases hfe : env.fileExists p = true
  · simp only [run_python_script, hfe, Bool.not_true, Bool.false_eq_true, if_false]
    cases h : subprocRunTimeout env [if os = OS.windows then "python" else "python3", p] t with
    | completed rc o e => simp only [h]; exact Or.inl rfl
    | timedOut => simp only [h]; exact wellShaped_errDict _
  · simp only [Bool.not_eq_true] at hfe
    simp only [run_python_script, hfe, Bool.not_false, eq_self_iff_true, if_true]
    exact wellShaped_errDict _

theorem execute_cli_command_wellShaped (env : ProcEnv) (os : OS)
    (c : String) (t : Nat) : wellShaped (execute_cli_command env os c t) := by
  simp only [execute_cli_command]
  cases h : subprocRunTimeout env
      (if os = OS.windows then ["powershell", "-Command", c] else pySplit c) t with
  | completed rc o e => simp only [h]; exact Or.inl rfl
  | timedOut => simp only [h]; exact wellShaped_errDict _

theorem fetch_url_content_wellShaped (env : HttpEnv) (url : String) :
    wellShaped (fetch_url_content env url) := by
  cases h : env.duration url with
  | none =>
    simp only [fetch_url_content, h]
    exact wellShaped_errDict _
  | some d =>
    simp only [fetch_url_content, h]
    split_ifs <;> first | exact Or.inl rfl | exact wellShaped_errDict _

theorem notifRun_shape (env : ProcEnv) (cmd : List String)
    (m t osn : String) :
    notifRun env cmd m t osn = Hangable.hang ∨
    (∃ msg, notifRun env cmd m t osn = Hangable.result [("error", JVal.s msg)]) ∨
    (∃ (rc : Int) (e : String) (r : Res),
      notifRun env cmd m t osn = Hangable.result r ∧
      errCount r = 1 ∧
      resGet r "error" = some (if rc != 0 then JVal.s e else JVal.null) ∧
      resGet r "success" = some (JVal.b (rc == 0))) := by
  cases h : subprocRunNoTimeout env cmd with
  | hang => left; simp [notifRun, h]
  | result v =>
    obtain ⟨rc, o, e⟩ := v
    right; right
    refine ⟨rc, e,
      [("message", JVal.s m), ("title", JVal.s t), ("platform", JVal.s osn),
       ("success", JVal.b (rc == 0)),
       ("error", if rc != 0 then JVal.s e else JVal.null),
       ("timestamp", JVal.n 0)], ?_, rfl, rfl, rfl⟩
    simp [notifRun, h]

/-- C5 (amended): every registered tool except send_system_notification,
remember_fact and forget returns a mapping that lacks an error key on its
success paths and is exactly the one-key error mapping on its failure
paths; send_system_notification instead always includes an error key in
the notification dict (null exactly when the spawned command exited with
code 0, the captured stderr otherwise), and the two memory tools report
their caught failures through status="error" with a message and no error
key. -/
theorem tool_results_two_shapes :
    (∀ (os : OS) (st : FSState) (days : Int),
      wellShaped (check_trash_bin os st days)) ∧
    (∀ (os : OS) (st : FSState) (days : Int) (confirm : Bool),
      wellShaped (clean_old_trash_files os st days confirm).1) ∧
    (∀ (val : String → JVal) (b : ReadFileBranch),
      wellShaped (read_file_content val b)) ∧
    (∀ (val : String → JVal) (b : WriteFileBranch),
      wellShaped (write_file_content val b)) ∧
    (∀ (val : String → JVal) (b : ListDirBranch),
      wellShaped (list_directory_contents val b)) ∧
    (∀ (val : String → JVal) (b : FindFilesBranch),
      wellShaped (find_files val b)) ∧
    (∀ (val : String → JVal) (b : SearchTextBranch),
      wellShaped (search_text val b)) ∧
    (∀ (val : String → JVal) (b : MySqlBranch),
      wellShaped (create_mysql_database val b)) ∧
    (∀ (val : String → JVal) (b : MySqlBranch),
      wellShaped (execute_mysql_command val b)) ∧
    (∀ (val : String → JVal) (b : MySqlBranch),
      wellShaped (analyze_mysql_database_structure val b)) ∧
    (∀ (val : String → JVal) (b : MySqlBranch),
      wellShaped (list_mysql_databases val b)) ∧
    (∀ (val : String → JVal) (b : SysInfoBranch),
      wellShaped (get_system_info val b)) ∧
    (∀ (env : ProcEnv) (os : OS) (p : String) (t : Nat),
      wellShaped (run_python_script env os p t)) ∧
    (∀ (val : String → JVal) (b : AnalyzeCodeBranch),
      wellShaped (analyze_python_code val b)) ∧
    (∀ (env : ProcEnv) (os : OS) (c : String) (t : Nat),
      wellShaped (execute_cli_command env os c t)) ∧
    (∀ (env : HttpEnv) (url : String),
      wellShaped (fetch_url_content env url)) ∧
    (∀ (env : ProcEnv) (os : OS) (m t : String),
      send_system_notification env os m t = Hangable.hang ∨
      (∃ msg, send_system_notification env os m t =
        Hangable.result [("error", JVal.s msg)]) ∨
      (∃ (rc : Int) (e : String) (r : Res),
        send_system_notification env os m t = Hangable.result r ∧
        errCount r = 1 ∧
        resGet r "error" = some (if rc != 0 then JVal.s e else JVal.null) ∧
        resGet r "success" = some (JVal.b (rc == 0)))) ∧
    ((∀ b, errCount (rememberResult b) = 0) ∧
      ∀ m, resGet (rememberResult (RememberBranch.raised m)) "status" =
        some (JVal.s "error")) ∧
    ((∀ o, errCount (forgetResult o) = 0) ∧
      ∀ m, resGet (forgetResult (ForgetOutcome.errorOut m)) "status" =
        some (JVal.s "error")) := by
  refine ⟨check_trash_bin_wellShaped, clean_old_trash_files_wellShaped,
    ?_, ?_, ?_, ?_, ?_, ?_, ?_, ?_, ?_, ?_,
    run_python_script_wellShaped, ?_, execute_cli_command_wellShaped,
    fetch_url_content_wellShaped, ?_, ⟨?_, ?_⟩, ⟨?_, ?_⟩⟩
  · intro val b
    cases b <;> first | exact Or.inl rfl | exact wellShaped_errDict _
  · intro val b
    cases b <;> first | exact Or.inl rfl | exact wellShaped_errDict _
  · intro val b
    cases b <;> first | exact Or.inl rfl | exact wellShaped_errDict _
  · intro val b
    cases b <;> first | exact Or.inl rfl | exact wellShaped_errDict _
  · intro val b
    cases b <;> first | exact Or.inl rfl | exact wellShaped_errDict _
  · intro val b
    cases b <;> first | exact Or.inl rfl | exact wellShaped_errDict _
  · intro val b
    cases b <;> first | exact Or.inl rfl | exact wellShaped_errDict _
  · intro val b
    cases b <;> first | exact Or.inl rfl | exact wellShaped_errDict _
  · intro val b
    cases b <;> first | exact Or.inl rfl | exact wellShaped_errDict _
  · intro val b
    cases b <;> first | exact Or.inl rfl | exact wellShaped_errDict _
  · intro val b
    cases b <;> first | exact Or.inl rfl | exact wellShaped_errDict _
  · intro env os m t
    cases os with
    | other n => exact Or.inr (Or.inl ⟨_, rfl⟩)
    | macos => exact notifRun_shape env (notificationCmd OS.macos m t) m t "Darwin"
    | windows => exact notifRun_shape env (notificationCmd OS.windows m t) m t "Windows"
    | linux => exact notifRun_shape env (notificationCmd OS.linux m t) m t "Linux"
  · intro b; cases b <;> rfl
  · intro m; rfl
  · intro o; cases o <;> rfl
  · intro m; rfl

/-- C5 counterexample: on Linux with a notifier command that completes at
once with exit code 0 (the underlying operation succeeds), the result of
send_system_notification carries success=true AND an error key (valued
null), so its success result does not lack the error key; and a raised
failure inside MemoryManager.remember yields a mapping with no error key
at all, only status="error". -/
theorem tool_results_two_shapes_cex :
    send_system_notification quickOkEnv OS.linux "hello" "System Agent" =
      Hangable.result
        [("message", JVal.s "hello"), ("title", JVal.s "System Agent"),
         ("platform", JVal.s "Linux"), ("success", JVal.b true),
         ("error", JVal.null), ("timestamp", JVal.n 0)] ∧
    rememberResult (RememberBranch.raised "db write failed") =
      [("status", JVal.s "error"), ("message", JVal.s "db write failed")] ∧
    resGet (rememberResult (RememberBranch.raised "db write failed")) "error" =
      none :=
  ⟨rfl, rfl, rfl⟩
